import Mathlib

/-!
# Scarecrow listener orchestration: a shallow embedding

This file embeds the dispatcher / listener-orchestration layer of the
Scarecrow chatbot (`src/cmd/scarecrow/main.go`, package `scarecrow`) into
Lean 4 and proves properties of it.

Go strings are modelled as Lean `String` (with the Go library functions
`strings.Trim`, `strings.ToLower`, `strings.Index(s, p) == 0` and the two
anchored regular expressions re-expressed over `String.data`), the
`map[string]Listener` of active listeners as the collection of its keys
(a `Finset String`, resp. a `List String` where only ordering-free
iteration matters), goroutine-visible side effects (brain reload, admin
persistence, transaction log, reply engine query, channel sends,
shutdown broadcast) as an explicit trace of `Action` values in program
order, and `os.Exit` as trace truncation.
-/

namespace Scarecrow

/-- A listener registration record from the bots configuration
(fields `Id`, `Type`, `Enabled` used by `StartAllBots`). -/
structure ListenerConfig where
  id : String
  type : String
  enabled : Bool
deriving DecidableEq, Repr

/-- `types.ReplyRequest`: a message envelope from a listener to the
dispatcher (`Listener`, `Username`, `BotUsername`, `Message`, `GroupChat`). -/
structure ReplyRequest where
  listener : String
  username : String
  botUsername : String
  message : String
  groupChat : Bool
deriving DecidableEq, Repr

/-- Observable events of `StartAllBots`: a listener's `Start()` being
invoked, or the fatal `os.Exit(1)` on a duplicate listener id. -/
inductive StartEvent where
  | started (id : String)
  | fatalExit
deriving DecidableEq, Repr

/-- Side effects of the dispatcher's message handling, in program order:
`InitBrain` (reload), `SaveAdminsConfig`, `LogTransaction`, a `GetReply`
call to the external reply engine, the `ReplyAnswer` sent on the answer
channel, and a `Stop{}` envelope sent to a listener's input channel. -/
inductive Action where
  | reloadBrain
  | saveAdmins (admins : List String)
  | logTransaction (uid input botUsername reply : String)
  | engineQuery (botUsername uid message : String) (groupChat : Bool)
  | sendReply (username message : String)
  | stopSent (listenerId : String)
deriving DecidableEq, Repr

/-- Does the character list `pat` occur at the front of `s`?  This is
`strings.Index(s, pat) == 0` restricted to what the dispatcher uses. -/
def isPrefixList : List Char → List Char → Bool
  | [], _ => true
  | _ :: _, [] => false
  | p :: ps, c :: cs => p == c && isPrefixList ps cs

/-- `strings.Index(s, pat) == 0`: the command-matching test of `OnMessage`. -/
def strStartsWith (s pat : String) : Bool :=
  isPrefixList pat.data s.data

/-- Membership of a character in a Go `strings.Trim` cutset. -/
def inCutset (cutset : String) (c : Char) : Bool :=
  cutset.data.any (fun d => d == c)

/-- Go's `strings.Trim(s, cutset)`: remove all leading and trailing
characters contained in `cutset`. -/
def goStringsTrim (s cutset : String) : String :=
  ⟨((s.data.dropWhile (inCutset cutset)).reverse.dropWhile (inCutset cutset)).reverse⟩

/-- The `input := strings.Trim(req.Message, " ")` line of `OnMessage`:
the input string that is tested against the command prefixes. -/
def onMessageInput (message : String) : String :=
  goStringsTrim message " "

/-- Go's `strings.ToLower`, character-wise lowercasing. -/
def goToLower (s : String) : String :=
  ⟨s.data.map Char.toLower⟩

/-- The routing identity built by `OnMessage`:
`uid := fmt.Sprintf("%s-%s", req.Listener, strings.ToLower(req.Username))`. -/
def uidOf (listenerId username : String) : String :=
  listenerId ++ "-" ++ goToLower username

/-- `Scarecrow.IsAdmin`: scan `AdminsConfig.Admins` for an entry equal
(`==`, exact and case-sensitive) to the given user id. -/
def IsAdmin (admins : List String) (username : String) : Bool :=
  admins.any (fun user => user == username)

/-- One character of the `!op`/`!deop` argument class `[A-Za-z0-9.@_-]`. -/
def nameChar (c : Char) : Bool :=
  c.isUpper || c.isLower || c.isDigit || c == '.' || c == '@' || c == '-' || c == '_'

/-- `FindStringSubmatch` for the anchored pattern `^head([A-Za-z0-9.@_-]+?)$`:
the whole input must be `head` followed by a non-empty run of `nameChar`s,
and the captured group is that run. -/
def reSubmatch (head input : String) : Option String :=
  let rest := input.data.drop head.data.length
  if strStartsWith input head && !rest.isEmpty && rest.all nameChar then
    some ⟨rest⟩
  else
    none

/-- `RE_OP = regexp.MustCompile("^!op ([A-Za-z0-9\\.@\\-_]+?)$")` applied
to an input string, returning the captured name on a match. -/
def reOpFind (input : String) : Option String :=
  reSubmatch "!op " input

/-- `RE_DEOP = regexp.MustCompile("^!deop ([A-Za-z0-9\\.@\\-_]+?)$")`
applied to an input string, returning the captured name on a match. -/
def reDeopFind (input : String) : Option String :=
  reSubmatch "!deop " input

/-- `Scarecrow.Shutdown`: iterate the active listeners and send `Stop{}`
to each one's input channel. -/
def Shutdown (activeListeners : List String) : List Action :=
  activeListeners.map Action.stopSent

/-- Result of the admin command if-chain inside `OnMessage`: the admin
list afterwards, the side effects so far, the `reply` variable, and
whether `defer self.Shutdown()` was registered. -/
structure CmdOutcome where
  admins : List String
  acts : List Action
  reply : String
  haltDeferred : Bool
deriving DecidableEq, Repr

/-- The command if-chain of `OnMessage`, reached only when the sender is
an admin: `!reload`, `!op`, `!deop`, `!halt` tested in that order by
`strings.Index(input, prefixString) == 0`. -/
def handleCommand (admins : List String) (input : String) : CmdOutcome :=
  if strStartsWith input "!reload" then
    ⟨admins, [Action.reloadBrain], "Brain reloaded!", false⟩
  else if strStartsWith input "!op" then
    match reOpFind input with
    | some opName =>
      let newAdmins := admins ++ [opName]
      ⟨newAdmins, [Action.saveAdmins newAdmins],
        opName ++ " added to the admins list.", false⟩
    | none => ⟨admins, [], "Syntax error.", false⟩
  else if strStartsWith input "!deop" then
    match reDeopFind input with
    | some opName =>
      let newAdmins := admins.filter (fun name => name != opName)
      ⟨newAdmins, [Action.saveAdmins newAdmins],
        opName ++ " removed from the admins list.", false⟩
    | none => ⟨admins, [], "Syntax error.", false⟩
  else if strStartsWith input "!halt" then
    ⟨admins, [], "Shutting down...", true⟩
  else
    ⟨admins, [], "", false⟩

/-- The admin-guarded command phase of `OnMessage`: a non-admin sender
skips the whole if-chain, leaving `reply` empty and no side effect. -/
def onMessageCmd (admins : List String) (req : ReplyRequest) : CmdOutcome :=
  if IsAdmin admins (uidOf req.listener req.username) then
    handleCommand admins (onMessageInput req.message)
  else
    ⟨admins, [], "", false⟩

/-- Result of `OnMessage`: the admin list afterwards, the trace of side
effects in program order, and the reply string that was sent. -/
structure OMResult where
  admins : List String
  acts : List Action
  reply : String
deriving DecidableEq, Repr

/-- `Scarecrow.OnMessage`. The reply engine (`GetReply`) lives outside
this layer; modelled from the spec: an external collaborator
`GetReply(botUsername, uid, message, isGroupChat) → replyText`, passed
here as the function argument `getReply`. An empty `reply` after the
command phase means no command produced a reply: the raw (space-trimmed
only inside the command phase) `req.Message` is forwarded to the reply
engine; otherwise the command transaction is logged. The answer envelope
is then sent, and the `defer self.Shutdown()` registered by the `!halt`
branch runs last, after the send. -/
def OnMessage (getReply : String → String → String → Bool → String)
    (admins : List String) (activeListeners : List String)
    (req : ReplyRequest) : OMResult :=
  let uid := uidOf req.listener req.username
  let c := onMessageCmd admins req
  let reply :=
    if c.reply == "" then getReply req.botUsername uid req.message req.groupChat
    else c.reply
  let branchActs :=
    if c.reply == "" then
      [Action.engineQuery req.botUsername uid req.message req.groupChat]
    else
      [Action.logTransaction uid (onMessageInput req.message) req.botUsername c.reply]
  ⟨c.admins,
    c.acts ++ branchActs ++ [Action.sendReply req.username reply]
      ++ (if c.haltDeferred then Shutdown activeListeners else []),
    reply⟩

/-- `Scarecrow.OnStopped`: delete the stopped listener from the active
map and report whether the process exits (`len(self.Listeners) == 0`). -/
def OnStopped (activeListeners : Finset String) (stoppedId : String) :
    Finset String × Bool :=
  let remaining := activeListeners.erase stoppedId
  (remaining, remaining.card == 0)

/-- The per-registration loop of `StartAllBots`. `active` is the key set
of `self.Listeners` built up so far (in reverse order); `known` is the
set of listener types registered with `listeners.Create`. A disabled
registration is skipped; a registration whose id is already active logs
and calls `os.Exit(1)` (trace ends); an unknown type is logged and
skipped; otherwise the listener is started and recorded. -/
def startListeners (known : List String) :
    List String → List ListenerConfig → List StartEvent
  | _, [] => []
  | active, l :: rest =>
    if l.enabled = false then
      startListeners known active rest
    else if active.contains l.id then
      [StartEvent.fatalExit]
    else if !known.contains l.type then
      startListeners known active rest
    else
      StartEvent.started l.id :: startListeners known (l.id :: active) rest

/-- `Scarecrow.StartAllBots`: if the database is not ready, do nothing;
otherwise process the configured registrations in order. -/
def StartAllBots (dbReady : Bool) (known : List String)
    (cfg : List ListenerConfig) : List StartEvent :=
  if dbReady then startListeners known [] cfg else []

/-- Modelled from the spec: the claim's notion of a whitespace character
to be trimmed (spaces, tabs, newlines). -/
def isSpecWhitespace (c : Char) : Bool :=
  c == ' ' || c == '\t' || c == '\n'

/-- Modelled from the spec: the raw message with all leading and trailing
whitespace characters (spaces, tabs, newlines) removed. -/
def specTrimWhitespace (s : String) : String :=
  ⟨((s.data.dropWhile isSpecWhitespace).reverse.dropWhile isSpecWhitespace).reverse⟩

/-- The raw message with leading and trailing space characters (U+0020)
removed, written independently of `goStringsTrim`. -/
def stripSpaces (s : String) : String :=
  ⟨((s.data.dropWhile (fun c => c == ' ')).reverse.dropWhile (fun c => c == ' ')).reverse⟩

/-! ### Unfolding equations for `OnMessage` -/

theorem OnMessage_admins_def (getReply : String → String → String → Bool → String)
    (admins activeListeners : List String) (req : ReplyRequest) :
    (OnMessage getReply admins activeListeners req).admins =
      (onMessageCmd admins req).admins := rfl

theorem OnMessage_reply_def (getReply : String → String → String → Bool → String)
    (admins activeListeners : List String) (req : ReplyRequest) :
    (OnMessage getReply admins activeListeners req).reply =
      (if (onMessageCmd admins req).reply == "" then
        getReply req.botUsername (uidOf req.listener req.username) req.message req.groupChat
      else (onMessageCmd admins req).reply) := rfl

theorem OnMessage_acts_def (getReply : String → String → String → Bool → String)
    (admins activeListeners : List String) (req : ReplyRequest) :
    (OnMessage getReply admins activeListeners req).acts =
      (onMessageCmd admins req).acts
        ++ (if (onMessageCmd admins req).reply == "" then
              [Action.engineQuery req.botUsername (uidOf req.listener req.username)
                req.message req.groupChat]
            else
              [Action.logTransaction (uidOf req.listener req.username)
                (onMessageInput req.message) req.botUsername (onMessageCmd admins req).reply])
        ++ [Action.sendReply req.username (OnMessage getReply admins activeListeners req).reply]
        ++ (if (onMessageCmd admins req).haltDeferred then Shutdown activeListeners else []) :=
  rfl


/-! ### Activation (C1) -/

/-- Invariant form of the duplicate-id bailout of `startListeners`,
generalized over the already-active key set. -/
theorem startListeners_dup_fatal (known : List String) (cfg : List ListenerConfig) :
    ∀ active : List String, active.Nodup →
    (∀ l ∈ cfg, l.enabled = true → known.contains l.type = true) →
    ¬ (active ++ (cfg.filter (fun l => l.enabled)).map ListenerConfig.id).Nodup →
    ∃ pre, startListeners known active cfg = pre ++ [StartEvent.fatalExit] ∧
      ∀ e ∈ pre, ∃ i, e = StartEvent.started i := by
  induction cfg with
  | nil =>
    intro active hnd _ hdup
    exact absurd (by simpa using hnd) hdup
  | cons l rest ih =>
    intro active hnd hk hdup
    by_cases he : l.enabled = true
    · by_cases hmem : active.contains l.id
      · have hm : l.id ∈ active := by simpa using hmem
        refine ⟨[], ?_, by simp⟩
        simp [startListeners, he, hm]
      · have hknown : known.contains l.type = true := hk l (List.mem_cons_self l rest) he
        have hknownMem : l.type ∈ known := by simpa using hknown
        have hnotmem : l.id ∉ active := by
          simpa using hmem
        have hdup2 : ¬ ((l.id :: active) ++
            (rest.filter (fun l => l.enabled)).map ListenerConfig.id).Nodup := by
          intro hcontra
          apply hdup
          rw [List.filter_cons_of_pos (by simpa using he), List.map_cons]
          exact List.perm_middle.symm.nodup (by simpa using hcontra)
        obtain ⟨pre, heq, hpre⟩ := ih (l.id :: active)
          (List.nodup_cons.mpr ⟨hnotmem, hnd⟩)
          (fun l2 hl2 => hk l2 (List.mem_cons_of_mem l hl2)) hdup2
        refine ⟨StartEvent.started l.id :: pre, ?_, ?_⟩
        · simp [startListeners, he, hnotmem, hknownMem, heq]
        · intro e hme
          rcases List.mem_cons.mp hme with he2 | h2
          · exact ⟨l.id, he2⟩
          · exact hpre e h2
    · have he2 : l.enabled = false := by
        simpa using he
      have hdup2 : ¬ (active ++
          (rest.filter (fun l => l.enabled)).map ListenerConfig.id).Nodup := by
        intro hcontra
        apply hdup
        rwa [List.filter_cons_of_neg (by simp [he2])]
      obtain ⟨pre, heq, hpre⟩ := ih active hnd
        (fun l2 hl2 => hk l2 (List.mem_cons_of_mem l hl2)) hdup2
      exact ⟨pre, by simp [startListeners, he2, heq], hpre⟩

/-- Claim C1, amended: with the database ready and every enabled
registration's type registered, a configuration whose enabled
registrations carry a duplicate id makes `StartAllBots` fatally exit at
the first registration whose id is already active: the trace ends at the
fatal exit, the duplicate registration's `Start()` is never invoked, and
everything before the exit is the `Start()` of an earlier registration
with a distinct id. (The original claim — exit before *any* `Start()` —
is refuted by `StartAllBots_start_precedes_duplicate_exit`.) -/
theorem StartAllBots_duplicate_id_fatal (known : List String) (cfg : List ListenerConfig)
    (hk : ∀ l ∈ cfg, l.enabled = true → known.contains l.type = true)
    (hdup : ¬ ((cfg.filter (fun l => l.enabled)).map ListenerConfig.id).Nodup) :
    ∃ pre, StartAllBots true known cfg = pre ++ [StartEvent.fatalExit] ∧
      ∀ e ∈ pre, ∃ i, e = StartEvent.started i := by
  have h := startListeners_dup_fatal known cfg [] List.nodup_nil hk (by simpa using hdup)
  simpa [StartAllBots] using h

theorem StartAllBots_duplicate_id_fatal_witness :
    ∃ pre, StartAllBots true ["Console"]
        [⟨"a", "Console", true⟩, ⟨"b", "Console", true⟩, ⟨"a", "Console", true⟩] =
        pre ++ [StartEvent.fatalExit] ∧
      ∀ e ∈ pre, ∃ i, e = StartEvent.started i :=
  StartAllBots_duplicate_id_fatal ["Console"]
    [⟨"a", "Console", true⟩, ⟨"b", "Console", true⟩, ⟨"a", "Console", true⟩]
    (by decide) (by decide)

/-- Claim C1, counterexample: a configuration with two enabled listeners
sharing id `"a"`. The first listener's `Start()` is invoked (first trace
event) before the fatal exit, refuting "terminates the process before
any listener's `Start()` is invoked". -/
theorem StartAllBots_start_precedes_duplicate_exit :
    ¬ ((([⟨"a", "Console", true⟩, ⟨"a", "Console", true⟩] :
        List ListenerConfig).filter (fun l => l.enabled)).map ListenerConfig.id).Nodup ∧
    StartAllBots true ["Console"] [⟨"a", "Console", true⟩, ⟨"a", "Console", true⟩] =
      [StartEvent.started "a", StartEvent.fatalExit] :=
  ⟨by decide, by decide⟩

/-! ### Listener removal (C2) -/

/-- Claim C2: processing `Stopped{A}` removes exactly the entry `A` from
the active-listener mapping (a key `b` survives iff it was present and
differs from `A`) and the process exits iff the mapping is empty
afterwards; in particular with `A` and `B` active, `Stopped{A}` leaves
`{B}` and does not exit, and with only `A` active it exits. -/
theorem OnStopped_removes_only_stopped_exit_iff_empty :
    (∀ (active : Finset String) (a : String),
      (∀ b, b ∈ (OnStopped active a).1 ↔ (b ∈ active ∧ b ≠ a)) ∧
      ((OnStopped active a).2 = true ↔ (OnStopped active a).1 = ∅)) ∧
    OnStopped ({"A", "B"} : Finset String) "A" = ({"B"}, false) ∧
    OnStopped ({"A"} : Finset String) "A" = (∅, true) := by
  refine ⟨fun active a => ⟨fun b => ?_, ?_⟩, by decide, by decide⟩
  · simp [OnStopped, Finset.mem_erase, and_comm]
  · simp [OnStopped, Finset.card_eq_zero]

/-! ### Non-admin forwarding (C7) -/

/-- Claim C7: for a sender whose routing identity is not in the admin
list, `OnMessage` forwards `(botUsername, uid, rawMessage, isGroupChat)`
verbatim to the reply engine — the raw, untrimmed message — uses the
engine's text as the reply, performs no other side effect, and leaves
the admin list unchanged; no command is intercepted regardless of the
message content. -/
theorem OnMessage_nonadmin_forwards_verbatim
    (getReply : String → String → String → Bool → String)
    (admins activeListeners : List String) (req : ReplyRequest)
    (h : IsAdmin admins (uidOf req.listener req.username) = false) :
    OnMessage getReply admins activeListeners req =
      ⟨admins,
        [Action.engineQuery req.botUsername (uidOf req.listener req.username)
           req.message req.groupChat,
         Action.sendReply req.username
           (getReply req.botUsername (uidOf req.listener req.username)
             req.message req.groupChat)],
        getReply req.botUsername (uidOf req.listener req.username)
          req.message req.groupChat⟩ := by
  simp [OnMessage, onMessageCmd, h]

theorem OnMessage_nonadmin_forwards_verbatim_witness :
    IsAdmin [] (uidOf "console" "Bob") = false ∧
    OnMessage (fun _ _ _ _ => "G") [] [] ⟨"console", "Bob", "bot", "!halt", false⟩ =
      ⟨[], [Action.engineQuery "bot" (uidOf "console" "Bob") "!halt" false,
            Action.sendReply "Bob" "G"], "G"⟩ :=
  ⟨by decide,
   OnMessage_nonadmin_forwards_verbatim (fun _ _ _ _ => "G") [] []
     ⟨"console", "Bob", "bot", "!halt", false⟩ (by decide)⟩

/-! ### Admin identity (C9) -/

/-- Claim C9: admin privilege is exact case-sensitive equality of the
routing identity with some admin entry; every routing identity contains
a hyphen (`listenerId ++ "-" ++ lowercase username`), so an entry with
no hyphen never grants privilege: appending it changes no privilege
decision, and it alone grants none. -/
theorem IsAdmin_exact_equality_hyphenless_never_admin
    (admins : List String) (entry lid uname : String)
    (h : '-' ∉ entry.data) :
    (IsAdmin admins (uidOf lid uname) = true ↔ uidOf lid uname ∈ admins) ∧
    '-' ∈ (uidOf lid uname).data ∧
    IsAdmin (admins ++ [entry]) (uidOf lid uname) = IsAdmin admins (uidOf lid uname) ∧
    IsAdmin [entry] (uidOf lid uname) = false := by
  have hyph : '-' ∈ (uidOf lid uname).data := by
    unfold uidOf
    rw [String.data_append, String.data_append]
    exact List.mem_append.mpr (Or.inl (List.mem_append.mpr (Or.inr (by decide))))
  have hne : entry ≠ uidOf lid uname := by
    intro he
    rw [he] at h
    exact h hyph
  refine ⟨?_, hyph, ?_, ?_⟩
  · unfold IsAdmin
    rw [List.any_eq_true]
    constructor
    · rintro ⟨x, hx, he⟩
      rw [beq_iff_eq] at he
      exact he ▸ hx
    · intro hm
      exact ⟨_, hm, by simp⟩
  · unfold IsAdmin
    rw [List.any_append]
    have hfalse : [entry].any (fun user => user == uidOf lid uname) = false := by
      simp [beq_eq_false_iff_ne.mpr hne]
    rw [hfalse, Bool.or_false]
  · simp [IsAdmin, beq_eq_false_iff_ne.mpr hne]

theorem IsAdmin_exact_equality_hyphenless_never_admin_witness :
    ('-' ∉ ("carol" : String).data) ∧
    IsAdmin (["console-bob"] ++ ["carol"]) (uidOf "console" "Bob") =
      IsAdmin ["console-bob"] (uidOf "console" "Bob") ∧
    IsAdmin ["carol"] (uidOf "console" "Bob") = false :=
  ⟨by decide,
   (IsAdmin_exact_equality_hyphenless_never_admin ["console-bob"] "carol" "console" "Bob"
     (by decide)).2.2.1,
   (IsAdmin_exact_equality_hyphenless_never_admin ["console-bob"] "carol" "console" "Bob"
     (by decide)).2.2.2⟩

/-! ### Halt ordering (C3) -/

/-- Claim C3: when an admin's trimmed input starts with `!halt`, the
trace is exactly the transaction log entry, then the
`"Shutting down..."` reply on the answer channel, then — only
afterwards, because `Shutdown` was deferred — one `Stop{}` send to
every active listener's input channel. -/
theorem OnMessage_halt_reply_precedes_shutdown
    (getReply : String → String → String → Bool → String)
    (admins activeListeners : List String) (req : ReplyRequest)
    (hAdmin : IsAdmin admins (uidOf req.listener req.username) = true)
    (h1 : strStartsWith (onMessageInput req.message) "!reload" = false)
    (h2 : strStartsWith (onMessageInput req.message) "!op" = false)
    (h3 : strStartsWith (onMessageInput req.message) "!deop" = false)
    (hhalt : strStartsWith (onMessageInput req.message) "!halt" = true) :
    (OnMessage getReply admins activeListeners req).acts =
      [Action.logTransaction (uidOf req.listener req.username)
         (onMessageInput req.message) req.botUsername "Shutting down...",
       Action.sendReply req.username "Shutting down..."]
        ++ activeListeners.map Action.stopSent := by
  simp [OnMessage, onMessageCmd, handleCommand, hAdmin, h1, h2, h3, hhalt, Shutdown,
    show (("Shutting down..." : String) == "") = false from rfl]

theorem OnMessage_halt_reply_precedes_shutdown_witness :
    (OnMessage (fun _ _ _ _ => "G") ["console-bob"] ["console", "slack1"]
        ⟨"console", "Bob", "bot", " !halt ", false⟩).acts =
      [Action.logTransaction (uidOf "console" "Bob")
         (onMessageInput " !halt ") "bot" "Shutting down...",
       Action.sendReply "Bob" "Shutting down..."]
        ++ ["console", "slack1"].map Action.stopSent :=
  OnMessage_halt_reply_precedes_shutdown (fun _ _ _ _ => "G") ["console-bob"]
    ["console", "slack1"] ⟨"console", "Bob", "bot", " !halt ", false⟩
    (by decide) (by decide) (by decide) (by decide) (by decide)

/-! ### Reply non-emptiness (C4) -/

/-- Claim C4, amended: the reply is non-empty whenever the external
reply engine returns non-empty text; every command-branch reply is a
non-empty literal, and in the remaining branch the reply is exactly the
engine's text, so non-emptiness of the output cannot be guaranteed
without assuming it of the engine. -/
theorem OnMessage_reply_nonempty_of_engine_nonempty
    (getReply : String → String → String → Bool → String)
    (admins activeListeners : List String) (req : ReplyRequest)
    (hEngine : ∀ b u m g, getReply b u m g ≠ "") :
    (OnMessage getReply admins activeListeners req).reply ≠ "" := by
  rw [OnMessage_reply_def]
  by_cases h : ((onMessageCmd admins req).reply == "") = true
  · rw [if_pos h]
    exact hEngine _ _ _ _
  · rw [if_neg h]
    simpa using h

theorem OnMessage_reply_nonempty_of_engine_nonempty_witness :
    (OnMessage (fun _ _ _ _ => "ok") [] []
        ⟨"console", "Bob", "bot", "hello", false⟩).reply ≠ "" := by
  have hOk : ("ok" : String) ≠ "" := by decide
  exact OnMessage_reply_nonempty_of_engine_nonempty (fun _ _ _ _ => "ok") [] []
    ⟨"console", "Bob", "bot", "hello", false⟩ (fun _ _ _ _ => hOk)

/-- Claim C4, counterexample: a non-admin request whose reply is the
engine's returned text verbatim; with an engine returning the empty
string the reply sent by `OnMessage` is empty, refuting "non-empty
regardless of sender, admin status, and message content". -/
theorem OnMessage_reply_empty_when_engine_empty :
    (OnMessage (fun _ _ _ _ => "") [] []
        ⟨"console", "Bob", "bot", "hello", false⟩).reply = "" := by
  decide

/-! ### op/deop round trip (C5) -/

/-- Claim C5: for an admin sender and an admin list not containing
`"alice"`, `!op alice` appends `"alice"` and the subsequent
`!deop alice` restores the original list exactly. -/
theorem OnMessage_op_deop_roundTrip
    (getReply : String → String → String → Bool → String)
    (admins activeListeners : List String) (lid uname bot : String) (gc : Bool)
    (hAdmin : IsAdmin admins (uidOf lid uname) = true)
    (hFresh : "alice" ∉ admins) :
    (OnMessage getReply admins activeListeners ⟨lid, uname, bot, "!op alice", gc⟩).admins
        = admins ++ ["alice"] ∧
    (OnMessage getReply
        (OnMessage getReply admins activeListeners ⟨lid, uname, bot, "!op alice", gc⟩).admins
        activeListeners ⟨lid, uname, bot, "!deop alice", gc⟩).admins = admins := by
  have hop : ∀ adm : List String, handleCommand adm (onMessageInput "!op alice") =
      ⟨adm ++ ["alice"], [Action.saveAdmins (adm ++ ["alice"])],
        "alice added to the admins list.", false⟩ := fun _ => rfl
  have hdeop : ∀ adm : List String, handleCommand adm (onMessageInput "!deop alice") =
      ⟨adm.filter (fun name => name != "alice"),
        [Action.saveAdmins (adm.filter (fun name => name != "alice"))],
        "alice removed from the admins list.", false⟩ := fun _ => rfl
  have h1 : (OnMessage getReply admins activeListeners
      ⟨lid, uname, bot, "!op alice", gc⟩).admins = admins ++ ["alice"] := by
    rw [OnMessage_admins_def]
    simp [onMessageCmd, hAdmin, hop]
  have hAdmin2 : IsAdmin (admins ++ ["alice"]) (uidOf lid uname) = true := by
    unfold IsAdmin at hAdmin ⊢
    rw [List.any_append, hAdmin, Bool.true_or]
  have hfil : (admins ++ ["alice"]).filter (fun name => name != "alice") = admins := by
    rw [List.filter_append]
    have ha : (["alice"] : List String).filter (fun name => name != "alice") = [] := rfl
    have hb : admins.filter (fun name => name != "alice") = admins :=
      List.filter_eq_self.mpr (fun a ha2 => by
        have hne : a ≠ "alice" := fun heq => hFresh (heq ▸ ha2)
        simpa using hne)
    rw [ha, hb, List.append_nil]
  refine ⟨h1, ?_⟩
  rw [h1, OnMessage_admins_def]
  simp [onMessageCmd, hAdmin2, hdeop, hfil]

theorem OnMessage_op_deop_roundTrip_witness :
    (OnMessage (fun _ _ _ _ => "G") ["console-bob"] []
        ⟨"console", "Bob", "bot", "!op alice", false⟩).admins
      = ["console-bob"] ++ ["alice"] ∧
    (OnMessage (fun _ _ _ _ => "G")
        (OnMessage (fun _ _ _ _ => "G") ["console-bob"] []
          ⟨"console", "Bob", "bot", "!op alice", false⟩).admins
        [] ⟨"console", "Bob", "bot", "!deop alice", false⟩).admins = ["console-bob"] :=
  OnMessage_op_deop_roundTrip (fun _ _ _ _ => "G") ["console-bob"] []
    "console" "Bob" "bot" false (by decide) (by decide)

/-! ### Syntax errors (C6) -/

/-- Claim C6: for an admin sender, a `!op` or `!deop` command whose
argument fails the name pattern `[A-Za-z0-9.@_-]+` replies
`"Syntax error."`, leaves the admin list unchanged, and performs no
`SaveAdminsConfig` persistence call. -/
theorem OnMessage_syntax_error_no_mutation
    (getReply : String → String → String → Bool → String)
    (admins activeListeners : List String) (req : ReplyRequest)
    (hAdmin : IsAdmin admins (uidOf req.listener req.username) = true)
    (hre : strStartsWith (onMessageInput req.message) "!reload" = false)
    (hcase :
      (strStartsWith (onMessageInput req.message) "!op" = true ∧
        reOpFind (onMessageInput req.message) = none) ∨
      (strStartsWith (onMessageInput req.message) "!op" = false ∧
        strStartsWith (onMessageInput req.message) "!deop" = true ∧
        reDeopFind (onMessageInput req.message) = none)) :
    (OnMessage getReply admins activeListeners req).admins = admins ∧
    (OnMessage getReply admins activeListeners req).reply = "Syntax error." ∧
    ∀ l, Action.saveAdmins l ∉ (OnMessage getReply admins activeListeners req).acts := by
  rcases hcase with ⟨hop, hnone⟩ | ⟨hop, hdeop, hnone⟩
  · simp [OnMessage, onMessageCmd, handleCommand, hAdmin, hre, hop, hnone,
      show (("Syntax error." : String) == "") = false from rfl]
  · simp [OnMessage, onMessageCmd, handleCommand, hAdmin, hre, hop, hdeop, hnone,
      show (("Syntax error." : String) == "") = false from rfl]

theorem OnMessage_syntax_error_no_mutation_witness :
    (OnMessage (fun _ _ _ _ => "G") ["console-bob"] []
        ⟨"console", "Bob", "bot", "!op bad name!", false⟩).admins = ["console-bob"] ∧
    (OnMessage (fun _ _ _ _ => "G") ["console-bob"] []
        ⟨"console", "Bob", "bot", "!op bad name!", false⟩).reply = "Syntax error." ∧
    ∀ l, Action.saveAdmins l ∉ (OnMessage (fun _ _ _ _ => "G") ["console-bob"] []
        ⟨"console", "Bob", "bot", "!op bad name!", false⟩).acts :=
  OnMessage_syntax_error_no_mutation (fun _ _ _ _ => "G") ["console-bob"] []
    ⟨"console", "Bob", "bot", "!op bad name!", false⟩
    (by decide) (by decide) (Or.inl ⟨by decide, by decide⟩)

/-! ### Trimming (C8) -/

/-- Claim C8, amended: before command matching, `OnMessage` strips only
the surrounding space characters (U+0020) from the raw message: the
input tested against the command prefixes equals the raw message with
leading and trailing spaces removed. (Tabs and newlines are not
stripped — see `onMessageInput_keeps_tab`.) -/
theorem onMessageInput_strips_spaces_only (message : String) :
    onMessageInput message = stripSpaces message := by
  have h : inCutset " " = fun c => c == ' ' := by
    funext c
    rcases eq_or_ne c ' ' with hc | hc
    · subst hc
      rfl
    · have hl : (' ' == c) = false := beq_eq_false_iff_ne.mpr (Ne.symm hc)
      have hr : (c == ' ') = false := beq_eq_false_iff_ne.mpr hc
      simp [inCutset, hl, hr]
  unfold onMessageInput goStringsTrim stripSpaces
  rw [h]

/-- Claim C8, counterexample: the raw message `"\t!reload"` from an
admin. Full whitespace trimming would yield `"!reload"` and trigger the
reload command; the code's space-only trim leaves the tab in place, so
the input tested is unchanged and the message falls through to the
reply engine. -/
theorem onMessageInput_keeps_tab :
    onMessageInput "\t!reload" = "\t!reload" ∧
    specTrimWhitespace "\t!reload" = "!reload" ∧
    ("\t!reload" : String) ≠ "!reload" ∧
    (OnMessage (fun _ _ _ _ => "engine text") ["console-bob"] []
        ⟨"console", "Bob", "bot", "\t!reload", false⟩).reply = "engine text" :=
  ⟨by decide, by decide, by decide, by decide⟩

/-! ### Admin-list frame property (C10) -/

/-- In branches where neither regular expression matches, the command
phase leaves the admin list unchanged and performs no persistence. -/
theorem handleCommand_frame (admins : List String) (input : String)
    (hop : reOpFind input = none) (hdeop : reDeopFind input = none) :
    (handleCommand admins input).admins = admins ∧
    ∀ l, Action.saveAdmins l ∉ (handleCommand admins input).acts := by
  unfold handleCommand
  split_ifs <;> simp [hop, hdeop]

/-- Claim C10: `OnMessage` mutates the admin list only in the successful
`!op`/`!deop` branches — for a non-admin sender, or whenever neither
`RE_OP` nor `RE_DEOP` matches the trimmed input (which covers `!reload`,
`!halt`, both syntax-error branches, and plain forwarding), the admin
list afterwards equals the one before and no persistence call occurs. -/
theorem OnMessage_admins_frame
    (getReply : String → String → String → Bool → String)
    (admins activeListeners : List String) (req : ReplyRequest)
    (h : IsAdmin admins (uidOf req.listener req.username) = false ∨
         (reOpFind (onMessageInput req.message) = none ∧
          reDeopFind (onMessageInput req.message) = none)) :
    (OnMessage getReply admins activeListeners req).admins = admins ∧
    ∀ l, Action.saveAdmins l ∉ (OnMessage getReply admins activeListeners req).acts := by
  have hnonadmin : IsAdmin admins (uidOf req.listener req.username) = false →
      (OnMessage getReply admins activeListeners req).admins = admins ∧
      ∀ l, Action.saveAdmins l ∉ (OnMessage getReply admins activeListeners req).acts := by
    intro hf
    constructor
    · rw [OnMessage_admins_def]
      simp [onMessageCmd, hf]
    · intro l
      simp [OnMessage, onMessageCmd, hf]
  rcases h with h | ⟨hop, hdeop⟩
  · exact hnonadmin h
  · by_cases hAdm : IsAdmin admins (uidOf req.listener req.username) = true
    · have hcmd := handleCommand_frame admins (onMessageInput req.message) hop hdeop
      constructor
      · rw [OnMessage_admins_def]
        simp [onMessageCmd, hAdm, hcmd.1]
      · intro l
        have hco := hcmd.2 l
        rw [OnMessage_acts_def]
        simp only [onMessageCmd, hAdm, if_true]
        rcases Bool.eq_false_or_eq_true
            ((handleCommand admins (onMessageInput req.message)).reply == "") with hbr | hbr <;>
          rcases Bool.eq_false_or_eq_true
            (handleCommand admins (onMessageInput req.message)).haltDeferred with hh | hh <;>
          simp [hbr, hh, List.mem_append, Shutdown, List.mem_map, hco]
    · have hAdm2 : IsAdmin admins (uidOf req.listener req.username) = false := by
        simpa using hAdm
      exact hnonadmin hAdm2

theorem OnMessage_admins_frame_witness :
    (OnMessage (fun _ _ _ _ => "G") [] []
        ⟨"console", "Bob", "bot", "!op mallory", false⟩).admins = [] ∧
    ∀ l, Action.saveAdmins l ∉ (OnMessage (fun _ _ _ _ => "G") [] []
        ⟨"console", "Bob", "bot", "!op mallory", false⟩).acts :=
  OnMessage_admins_frame (fun _ _ _ _ => "G") [] []
    ⟨"console", "Bob", "bot", "!op mallory", false⟩ (Or.inl (by decide))

end Scarecrow
